import Mathlib

/-
Verification development for the grouping repository.

The repository consists of two JavaScript batch scripts:
  - updateStudentProfiles.js : builds a frequency index over the user-profile
    workbook, matches class-list form/column combinations against it, and
    appends the matched records to the student profile, sorted by grouping.
  - verifyUserProfiles.js : three concatenated programs: (a) a two-level
    structural verification of user-profile rows, (b) a teacher-workload
    processor whose Part 4 resolves a sub_code for each grouping string via
    layered override tables and a generic reference-table scan, and (c) a
    student-profile generator (main) with a deferred reconciliation store.

Rows and worksheet cells are modelled as Lean strings and association lists
in workbook order.  JavaScript string primitives (trim, split, includes,
toUpperCase, startsWith, parseInt, lexicographic comparison) are modelled by
structurally recursive functions over the character list of a string, so
that every definition evaluates by kernel reduction.  JavaScript objects and
Maps are modelled as insertion-ordered association lists; JavaScript
Array.prototype.sort with a key comparator is modelled by insertion sort
with respect to the comparator order.
-/

namespace Grouping

/-! ## JavaScript string primitives -/

/-- Boolean test that the first list is a prefix of the second. -/
def isPrefixOfL : List Char → List Char → Bool
  | [], _ => true
  | _ :: _, [] => false
  | a :: as, b :: bs => a == b && isPrefixOfL as bs

/-- Boolean test that the first list occurs contiguously inside the second,
as in JavaScript String.prototype.includes. -/
def occursIn (needle : List Char) : List Char → Bool
  | [] => needle.isEmpty
  | b :: bs => isPrefixOfL needle (b :: bs) || occursIn needle bs

/-- JavaScript s.includes(sub). -/
def strIncl (s sub : String) : Bool := occursIn sub.data s.data

/-- Drop whitespace from both ends of a character list. -/
def trimL (l : List Char) : List Char :=
  ((l.dropWhile Char.isWhitespace).reverse.dropWhile Char.isWhitespace).reverse

/-- JavaScript s.trim(). -/
def jsTrim (s : String) : String := ⟨trimL s.data⟩

/-- JavaScript s.replace(slash-dash-g, empty): remove every hyphen. -/
def removeHyphens (s : String) : String := ⟨s.data.filter (fun c => c ≠ '-')⟩

/-- Whether the string contains a hyphen. -/
def hasHyphen (s : String) : Bool := s.data.contains '-'

/-- JavaScript s.toUpperCase() (ASCII letters). -/
def jsToUpper (s : String) : String := ⟨s.data.map Char.toUpper⟩

/-- JavaScript s.toLowerCase() (ASCII letters). -/
def jsToLower (s : String) : String := ⟨s.data.map Char.toLower⟩

/-- Lexicographic less-or-equal on character lists, the order underlying the
JavaScript string comparison operators used by the sort comparators. -/
def lexLe : List Char → List Char → Bool
  | [], _ => true
  | _ :: _, [] => false
  | a :: as, b :: bs => if a = b then lexLe as bs else decide (a < b)

/-- Split a character list at every character satisfying p, keeping empty
pieces, as JavaScript split with a single-character separator does. -/
def splitOnPL (p : Char → Bool) (l : List Char) : List (List Char) :=
  l.foldr
    (fun a acc =>
      match acc with
      | [] => [[a]]
      | cur :: rest => if p a then [] :: cur :: rest else (a :: cur) :: rest)
    [[]]

/-- JavaScript s.split(c) for a one-character separator c. -/
def jsSplitOnChar (c : Char) (s : String) : List String :=
  (splitOnPL (fun a => a == c) s.data).map (fun l => ⟨l⟩)

/-- JavaScript s.trim().split(whitespace-run regex): the whitespace-separated
tokens of the trimmed string, except that the empty string yields a single
empty token, as the JavaScript split does. -/
def jsTrimSplitWs (s : String) : List String :=
  let t := trimL s.data
  if t.isEmpty then [""]
  else ((splitOnPL Char.isWhitespace t).filter (fun x => ¬ x.isEmpty)).map (fun l => ⟨l⟩)

/-- Leading decimal-digit run of a character list. -/
def leadingDigits (l : List Char) : List Char := l.takeWhile Char.isDigit

/-- Numeric value of a list of decimal digits. -/
def digitsToNat (l : List Char) : Nat :=
  l.foldl (fun n c => n * 10 + (c.toNat - '0'.toNat)) 0

/-- JavaScript s.replace(leading-digit-run regex, empty). -/
def stripLeadingDigitsStr (s : String) : String := ⟨s.data.dropWhile Char.isDigit⟩

/-- JavaScript s.charAt(0): one-character string, or empty when s is empty. -/
def jsCharAt0 (s : String) : String := ⟨s.data.take 1⟩

/-- JavaScript s.startsWith(p). -/
def jsStartsWith (s p : String) : Bool := isPrefixOfL p.data s.data

/-- JavaScript parseInt(s, 10) with a NaN result collapsed to 0 by the
or-zero idiom used at the Class-no sort: skip leading whitespace, read an
optional sign and a digit run; no digits means 0. -/
def jsParseIntOr0 (s : String) : Int :=
  match trimL s.data with
  | '-' :: rest =>
      let d := leadingDigits rest
      if d.isEmpty then 0 else -(digitsToNat d : Int)
  | '+' :: rest =>
      let d := leadingDigits rest
      if d.isEmpty then 0 else (digitsToNat d : Int)
  | t =>
      let d := leadingDigits t
      if d.isEmpty then 0 else (digitsToNat d : Int)

/-- JavaScript Number(s) restricted to the unsigned-integer strings that the
Form column carries: some value when the trimmed string is a non-empty digit
run, none otherwise (none stands for NaN or for values that fail the
greater-than-3 test, which the caller skips either way). -/
def jsNumberNat (s : String) : Option Nat :=
  let t := trimL s.data
  if ¬ t.isEmpty && t.all Char.isDigit then some (digitsToNat t) else none

/-- Number of decimal digits occurring in the string, as the length of a
JavaScript global digit-regex match. -/
def countDigits (s : String) : Nat := (s.data.filter Char.isDigit).length

/-! ## JavaScript objects as insertion-ordered association lists -/

/-- JavaScript object assignment obj[k] = v: overwrite in place, or append a
new key at the end. -/
def objSet (m : List (String × String)) (k v : String) : List (String × String) :=
  if m.any (fun kv => kv.1 == k) then
    m.map (fun kv => if kv.1 == k then (k, v) else kv)
  else m ++ [(k, v)]

/-- JavaScript property read guarded by hasOwnProperty: some value when the
key is present, none otherwise. -/
def objGet (m : List (String × String)) (k : String) : Option String :=
  (m.find? (fun kv => kv.1 == k)).map (fun kv => kv.2)

/-- JavaScript obj[k] with a default for an absent key (the or-empty idiom). -/
def objGetD (m : List (String × String)) (k d : String) : String :=
  (objGet m k).getD d

/-! ## updateStudentProfiles.js : frequency index and substring matcher -/

/-- Value stored in the frequency map for one normalized cell value. -/
structure FreqEntry where
  count : Nat
  subCodes : List String
deriving DecidableEq

/-- Result shape of findMatches. -/
structure MatchResult where
  count : Nat
  matchList : List String
  subCodes : List String
deriving DecidableEq

/-- Sub-code carried by a row for the frequency map: the trimmed sub_code
column value when the row has that column and the trimmed value is
non-empty. -/
def rowSubCode (row : List (String × String)) : Option String :=
  match row.lookup "sub_code" with
  | some v => let sv := jsTrim v; if sv ≠ "" then some sv else none
  | none => none

/-- Record one occurrence of a key in the frequency map, appending the row
sub-code (when present) to the subCodes list of that key. -/
def bumpFreq (fm : List (String × FreqEntry)) (key : String) (sc : Option String) :
    List (String × FreqEntry) :=
  let fm1 := if fm.any (fun kv => kv.1 == key) then fm else fm ++ [(key, ⟨0, []⟩)]
  fm1.map (fun kv =>
    if kv.1 == key then
      (kv.1, ⟨kv.2.count + 1,
        match sc with
        | some s => kv.2.subCodes ++ [s]
        | none => kv.2.subCodes⟩)
    else kv)

/-- Frequency map built from the user-profile rows: for each cell, trim the
value; when the trimmed value is non-empty, remove hyphens when present and
count that key, recording the row sub-code. -/
def buildFrequencyMap (rows : List (List (String × String))) : List (String × FreqEntry) :=
  rows.foldl
    (fun fm row =>
      row.foldl
        (fun fm cell =>
          let rawValue := jsTrim cell.2
          if rawValue ≠ "" then
            let cellValue := if hasHyphen rawValue then removeHyphens rawValue else rawValue
            bumpFreq fm cellValue (rowSubCode row)
          else fm)
        fm)
    []

/-- Display string for one matching key, key followed by its count in
parentheses. -/
def keyCountStr (k : String) (c : Nat) : String :=
  k ++ " (" ++ toString c ++ ")"

/-- Insert a sub-code into the collected list unless already present,
preserving first-seen order, as insertion into a JavaScript Set does. -/
def addSubCode (acc : List String) (sc : String) : List String :=
  if acc.contains sc then acc else acc ++ [sc]

/-- Insert each sub-code of a list in order. -/
def addSubCodes (acc : List String) (scs : List String) : List String :=
  scs.foldl addSubCode acc

/-- Loop body of findMatches for one frequency-map entry. -/
def findMatchesStep (normalizedSubstring : String) (r : MatchResult)
    (kv : String × FreqEntry) : MatchResult :=
  if strIncl kv.1 normalizedSubstring then
    { count := r.count + kv.2.count
      matchList := r.matchList ++ [keyCountStr kv.1 kv.2.count]
      subCodes := addSubCodes r.subCodes kv.2.subCodes }
  else r

/-- Search the frequency map for keys containing the query: hyphens are
removed from the query when present, then every key is scanned in insertion
order; counts are summed, a display string is pushed per matching key, and
the sub-codes of matching keys are collected into a deduplicated list. -/
def findMatches (fm : List (String × FreqEntry)) (substring : String) : MatchResult :=
  let normalizedSubstring :=
    if hasHyphen substring then removeHyphens substring else substring
  fm.foldl (findMatchesStep normalizedSubstring) ⟨0, [], []⟩

/-! ## updateStudentProfiles.js : record construction and sort -/

/-- Reference-table row exposing the sub_code and subject_code columns. -/
structure TRow where
  sub_code : String
  subject_code : String
deriving DecidableEq

/-- Mapping from sub_code to subject_code built from the reference table,
keeping only rows where both trimmed values are non-empty. -/
def subSubjectMappingOf (tableData : List TRow) : List (String × String) :=
  tableData.foldl
    (fun m row =>
      let subCode := jsTrim row.sub_code
      let subjectCode := jsTrim row.subject_code
      if subCode ≠ "" && subjectCode ≠ "" then objSet m subCode subjectCode else m)
    []

/-- Fixed sub-code conversion applied when a raw sub-code is prepared for
output. -/
def convertSubCode (subCode : String) : String :=
  if subCode = "DCHIS1" then "DCI11"
  else if subCode = "DCHIS3" then "DCI31"
  else subCode

/-- Nine-field record appended to the student profile by
updateStudentProfiles.js. -/
structure AppendRec where
  tsss_id : String
  a_year : String
  terms : String
  sub_code : String
  subject_code : String
  taking : String
  self_taking : String
  grouping : String
  grouping_real : String
deriving DecidableEq

/-- Build the record for one match result: requires a positive count, a
non-empty sub-code list and a non-empty match list; derives the grouping
from the first match string (text before the first opening parenthesis,
trimmed), converts the first sub-code, looks up its subject code, and emits
the record only when both codes are non-empty. -/
def processMatchForRecord (subSubjectMapping : List (String × String))
    (tsssid : String) (matchObj : MatchResult) : Option AppendRec :=
  if 0 < matchObj.count ∧ 0 < matchObj.subCodes.length ∧ 0 < matchObj.matchList.length then
    let grouping := jsTrim ((jsSplitOnChar '(' (matchObj.matchList.getD 0 "")).getD 0 "")
    let originalSub := jsTrim (matchObj.subCodes.getD 0 "")
    let sub_code := convertSubCode originalSub
    let subject_code := objGetD subSubjectMapping sub_code ""
    if sub_code ≠ "" ∧ subject_code ≠ "" then
      some ⟨tsssid, "2025/2026", "Term 1", sub_code, subject_code,
        "TRUE", "FALSE", grouping, grouping⟩
    else none
  else none

/-- Sort key of the final student-profile sort: the lowercased grouping
(an empty grouping lowers to the empty key, matching the falsy guard). -/
def groupingKey (r : AppendRec) : List Char := (jsToLower r.grouping).data

/-- Comparator order of the student-profile sort. -/
def groupingLe (a b : AppendRec) : Prop := lexLe (groupingKey a) (groupingKey b) = true

instance : DecidableRel groupingLe := fun a b =>
  inferInstanceAs (Decidable (lexLe (groupingKey a) (groupingKey b) = true))

/-- Final sort of the student-profile data by the grouping column. -/
def sortStudentData (rows : List AppendRec) : List AppendRec :=
  List.insertionSort groupingLe rows

/-- Output sequence of updateStudentProfiles.js: the original student data
with the appended records, sorted once by lowercased grouping. -/
def updateStudentOutput (studentData appendedRecords : List AppendRec) : List AppendRec :=
  sortStudentData (studentData ++ appendedRecords)

/-! ## verifyUserProfiles.js : two-level structural verification -/

/-- User-profile row as consumed by the verification passes; cls models the
class column (class is a reserved word in Lean). -/
structure VRow where
  cls : String
  sub_code : String
deriving DecidableEq

/-- Mapping of specific sub_code replacements for first-level invalid rows. -/
def firstLevelSubCodeMapping : List (String × String) :=
  [("DENG1", "ENN1"), ("DMA11", "MATH"), ("REGS", "DREST"), ("DPED11", "PHED"),
   ("DCLI21", "COLI"), ("CHN1", "DCHIN1"), ("DPHY11", "PHY1"), ("DVIA11", "VIAR"),
   ("DMUSI1", "MUSI"), ("DGEO11", "GEOG")]

/-- Mapping of specific sub_code replacements for second-level verification. -/
def secondLevelSubCodeMapping : List (String × String) :=
  [("DMA11", "DMATH1"), ("DPED11", "DPHEDS"), ("DPED3", "DPED31"), ("DPED2", "DPED21"),
   ("DCHS3A", "DC3A1"), ("DCHS3B", "DC3B1"), ("DCHIS2", "DCI21"), ("DCHIN", "DCHIN1"),
   ("DVIAR2", "DVIA21"), ("DVIAR3", "DVIA31")]

/-- Extract the class number: the leading digit run of the trimmed class
cell, or none when there is no leading digit. -/
def extractClassNumber (classStr : String) : Option Nat :=
  let d := leadingDigits (trimL classStr.data)
  if d.isEmpty then none else some (digitsToNat d)

/-- Whether the sub-code starts with an upper- or lowercase letter d. -/
def startsWithD (s : String) : Bool := jsStartsWith s "D" || jsStartsWith s "d"

/-- First-level override attempt: replace the sub_code when the trimmed
uppercased sub-code is a key of the first-level mapping. -/
def applyFirstLevelMapping (row : VRow) (subCode : String) : VRow :=
  match firstLevelSubCodeMapping.lookup (jsToUpper subCode) with
  | some replacement => { row with sub_code := replacement }
  | none => row

/-- First-level verification of one row: returns the possibly updated row
and whether the row is invalid.  A missing class number is invalid; with a
class number, a sub-code starting with d is required exactly when the class
number exceeds 3; on an invalid row the first-level override is attempted. -/
def firstLevelVerification (row : VRow) : VRow × Bool :=
  let subCode := jsTrim row.sub_code
  match extractClassNumber row.cls with
  | none => (applyFirstLevelMapping row subCode, true)
  | some classNumber =>
      let isValid := if classNumber ≤ 3 then ¬ startsWithD subCode else startsWithD subCode
      if isValid then (row, false) else (applyFirstLevelMapping row subCode, true)

/-- Second-level verification of one row: replace the current sub_code when
its trimmed uppercased value is a key of the second-level mapping. -/
def secondLevelVerification (row : VRow) : VRow :=
  let subCode := jsTrim row.sub_code
  match secondLevelSubCodeMapping.lookup (jsToUpper subCode) with
  | some replacement => { row with sub_code := replacement }
  | none => row

/-- Whole verification run: first-level verification over all rows with a
running invalid count, then second-level verification over the resulting
rows. -/
def runVerification (data : List VRow) : List VRow × Nat :=
  let firstResults := data.map firstLevelVerification
  let firstLevelInvalidCount := (firstResults.filter (fun p => p.2)).length
  let afterFirst := firstResults.map (fun p => p.1)
  (afterFirst.map secondLevelVerification, firstLevelInvalidCount)

/-! ## verifyUserProfiles.js Part 4 : sub-code resolver -/

/-- Special mapping for DSE subjects. -/
def dseMapping : List (String × String) :=
  [("DSE-PE1", "DPED1"), ("DSE-PE2", "DPED2"), ("DSE-PE3", "DPED3"),
   ("DSE-VA1", "DVIAR1"), ("DSE-VA2", "DVIAR2"), ("DSE-VA3", "DVIAR3")]

/-- Remove one pair of surrounding parentheses when the whole string is
parenthesized, as the anchored parenthesis regex replacement does. -/
def stripParens (s : String) : String :=
  match s.data with
  | '(' :: rest =>
      if rest ≠ [] ∧ rest.getLast? = some ')' then ⟨rest.dropLast⟩ else s
  | _ => s

/-- Special literal renames applied to the derived candidate. -/
def applyRenames (c : String) : String :=
  let c := if c = "MATHS" then "MATH" else c
  let c := if c = "RSE" then "REGS" else c
  let c := if c = "L&S" then "LISO" else c
  let c := if c = "VA" then "VIAR" else c
  let c := if c = "PTH" then "PUTO" else c
  c

/-- Candidate subject code derived from a grouping string: with three
space-separated tokens the second token, with two tokens the first token
with its leading digits removed and trimmed, otherwise empty; surrounding
parentheses are removed and the literal renames applied. -/
def deriveCandidate (groupingVal : String) : String :=
  let parts := (jsSplitOnChar ' ' groupingVal).filter (fun p => jsTrim p ≠ "")
  let base :=
    if parts.length = 3 then parts.getD 1 ""
    else if parts.length = 2 then jsTrim (stripLeadingDigitsStr (parts.getD 0 ""))
    else ""
  applyRenames (stripParens base)

/-- Generic reference-table scan: the first row, in sheet order, whose
subject-code column equals the candidate or contains it as a substring
yields its sub_code column; no such row yields the empty string. -/
def scanTableForMatch (tableRows : List TRow) (cand : String) : String :=
  match tableRows.find? (fun r => r.subject_code == cand || strIncl r.subject_code cand) with
  | some r => r.sub_code
  | none => ""

/-- Part 4 resolver: derive the candidate from the grouping, then apply the
override chain in priority order: the DSE mapping when the uppercased
grouping contains DSE and the candidate is a DSE key; the fixed M2 case;
the CHIST substring cases; the CHI and IS exact cases; finally the generic
reference-table scan.  An empty candidate resolves to the empty string. -/
def resolveSubCode (groupingVal : String) (tableRows : List TRow) : String :=
  let newSubjectCode := deriveCandidate groupingVal
  if strIncl (jsToUpper groupingVal) "DSE" && (dseMapping.lookup newSubjectCode).isSome then
    (dseMapping.lookup newSubjectCode).getD ""
  else if newSubjectCode = "M2" then "DMA21"
  else if newSubjectCode ≠ "" then
    if strIncl newSubjectCode "CHIST1" then "DCI11"
    else if strIncl newSubjectCode "CHIST2" then "DCI21"
    else if strIncl newSubjectCode "CHIST3A" then "DC3A1"
    else if strIncl newSubjectCode "CHIST3B" then "DC3B1"
    else if strIncl newSubjectCode "CHIST3" then "DCI31"
    else if newSubjectCode = "CHI" then "CHN1"
    else if newSubjectCode = "IS" then "INSC"
    else scanTableForMatch tableRows newSubjectCode
  else ""

/-- User-profile row shape written by Part 1 and updated by Part 4; cls
models the class column. -/
structure PRow where
  user : String
  sub_code : String
  cls : String
  grouping : String
  grouping_real : String
deriving DecidableEq

/-- Sort key of the Part 4 sort: the uppercased user column (modelling the
uppercase localeCompare comparator lexicographically). -/
def userKey (r : PRow) : List Char := (jsToUpper r.user).data

/-- Comparator order of the Part 4 sort. -/
def userLe (a b : PRow) : Prop := lexLe (userKey a) (userKey b) = true

instance : DecidableRel userLe := fun a b =>
  inferInstanceAs (Decidable (lexLe (userKey a) (userKey b) = true))

/-- Part 4 resolution pass: store the resolved sub-code of each grouping
into the sub_code field of the row. -/
def part4Resolve (tableRows : List TRow) (rows : List PRow) : List PRow :=
  rows.map (fun r => { r with sub_code := resolveSubCode r.grouping tableRows })

/-- Part 4 output: the resolved rows sorted once by the user column. -/
def part4Output (tableRows : List TRow) (rows : List PRow) : List PRow :=
  List.insertionSort userLe (part4Resolve tableRows rows)

/-! ## verifyUserProfiles.js main : student-profile generation with the
deferred reconciliation store -/

/-- Eligibility of a class field: exactly three whitespace-separated tokens
and the numeric part at the start of the first token between 1 and 6. -/
def isEligibleClass (classStr : String) : Bool :=
  let words := jsTrimSplitWs classStr
  if words.length ≠ 3 then false
  else
    let d := leadingDigits (words.getD 0 "").data
    if d.isEmpty then false
    else
      let numericValue := digitsToNat d
      decide (1 ≤ numericValue) && decide (numericValue ≤ 6)

/-- Extract the form/class token: the first whitespace-separated token. -/
def extractFormClass (classStr : String) : String :=
  (jsTrimSplitWs classStr).getD 0 ""

/-- Class-list row with the columns consumed by main; classNo models the
Class-no column and m12 the M1-and-2 column. -/
structure ClassRow where
  Form : String
  Class : String
  classNo : String
  TSSSID : String
  CHI : String
  MATHS : String
  RSE : String
  ENG : String
  m12 : String
deriving DecidableEq

/-- Output record written by main; subject_code is an Option because the
sub-code lookup yields null when the key is absent. -/
structure OutRec where
  tsss_id : String
  a_year : String
  terms : String
  sub_code : String
  subject_code : Option String
  taking : String
  self_taking : String
  grouping : String
  grouping_real : String
deriving DecidableEq

/-- Entry of the deferred reconciliation store. -/
structure StoreEntry where
  group : String
  subject : String
  teacher : String
  sub_code : String
deriving DecidableEq

/-- Deferred reconciliation store: an insertion-ordered map from the group
token to the list of stored entries for that group. -/
abbrev Store := List (String × List StoreEntry)

/-- Append an entry to the bucket of a group, creating the bucket at the end
of the map on first use. -/
def storePush (store : Store) (group : String) (entry : StoreEntry) : Store :=
  if store.any (fun b => b.1 == group) then
    store.map (fun b => if b.1 == group then (b.1, b.2 ++ [entry]) else b)
  else store ++ [(group, [entry])]

/-- Search the deferred store: scan the buckets in insertion order; a bucket
qualifies when the first character of its key equals the form string and the
key contains the class letter; within a qualifying bucket return the first
entry whose subject and teacher equal the query values; keep scanning when a
qualifying bucket has no such entry. -/
def searchMissingInfo (missingInfoMap : Store) (form cls subject teacher : String) :
    Option StoreEntry :=
  missingInfoMap.findSome? (fun b =>
    if jsCharAt0 b.1 == form && strIncl b.1 cls then
      b.2.find? (fun info => info.subject == subject && info.teacher == teacher)
    else none)

/-- Lookup map from sub_code to subject_code built by main from the
reference table (raw values, later rows overwrite earlier ones). -/
def subCodeMapOf (tableData : List TRow) : List (String × String) :=
  tableData.foldl (fun m row => objSet m row.sub_code row.subject_code) []

/-- Comparator order of the matching-class-rows sort: numeric Class-no with
a non-numeric value treated as 0. -/
def classNoLe (a b : ClassRow) : Prop :=
  jsParseIntOr0 a.classNo ≤ jsParseIntOr0 b.classNo

instance : DecidableRel classNoLe := fun a b =>
  inferInstanceAs (Decidable (jsParseIntOr0 a.classNo ≤ jsParseIntOr0 b.classNo))

/-- Unprocessed-row diagnostic of main. -/
structure UnprocRow where
  rowNumber : Nat
  reason : String
deriving DecidableEq

/-- Diagnostic reason for an ineligible class value (source text abridged to
its identifying head plus the offending value). -/
def reasonIneligible (classVal : String) : String :=
  "Ineligible class format. Value found: " ++ classVal

/-- Diagnostic reason for an eligible row without a class-list match
(source text abridged to its identifying head plus the token). -/
def reasonNoClassMatch (token : String) : String :=
  "Eligible row but no matching class found in class list for token: " ++ token

/-- Output record pushed by main for one matching class-list row. -/
def mkMainRec (subject_code : Option String) (row : PRow) (matchRow : ClassRow) : OutRec :=
  ⟨matchRow.TSSSID, "2025/2026", "Term 1", row.sub_code, subject_code,
   "TRUE", "FALSE", row.cls, row.cls⟩

/-- Body of the first loop of main for one user-profile row: ineligible rows
are logged; eligible rows without a class-list match are logged and their
tokens pushed into the deferred store; otherwise one output record is pushed
per matching class-list row, in ascending Class-no order. -/
def mainStep (classListData : List ClassRow) (subCodeMap : List (String × String))
    (st : List OutRec × List UnprocRow × Store) (ir : Nat × PRow) :
    List OutRec × List UnprocRow × Store :=
  let outs := st.1
  let unproc := st.2.1
  let store := st.2.2
  let index := ir.1
  let row := ir.2
  let rowNumber := index + 2
  if ¬ isEligibleClass row.cls then
    (outs, unproc ++ [⟨rowNumber, reasonIneligible row.cls⟩], store)
  else
    let formClassToken := extractFormClass row.cls
    let matchingClassRows :=
      classListData.filter (fun item => jsTrim item.Form ++ jsTrim item.Class == formClassToken)
    if matchingClassRows.isEmpty then
      let tokens := jsTrimSplitWs row.cls
      let group := tokens.getD 0 ""
      let subject := tokens.getD 1 ""
      let teacher := tokens.getD 2 ""
      (outs, unproc ++ [⟨rowNumber, reasonNoClassMatch formClassToken⟩],
       storePush store group ⟨group, subject, teacher, row.sub_code⟩)
    else
      let subject_code := objGet subCodeMap row.sub_code
      let sorted := List.insertionSort classNoLe matchingClassRows
      (outs ++ sorted.map (mkMainRec subject_code row), unproc, store)

/-- First loop of main over the user-profile rows (row numbers start at 2). -/
def firstLoop (classListData : List ClassRow) (subCodeMap : List (String × String))
    (userData : List PRow) : List OutRec × List UnprocRow × Store :=
  userData.enum.foldl (mainStep classListData subCodeMap) ([], [], [])

/-- Output record pushed by a recovery pass for one recovered entry. -/
def mkSearchRec (subCodeMap : List (String × String)) (info : StoreEntry)
    (row : ClassRow) : OutRec :=
  let combinedGrouping := info.group ++ " " ++ info.subject ++ " " ++ info.teacher
  ⟨row.TSSSID, "2025/2026", "Term 1", info.sub_code, objGet subCodeMap info.sub_code,
   "TRUE", "FALSE", combinedGrouping, combinedGrouping⟩

/-- Body of a recovery pass for one class-list row, threading the store
state explicitly: a successful search appends one record and leaves the
store as it was. -/
def searchPassStep (subCodeMap : List (String × String)) (subject : String)
    (teacherOf : ClassRow → String) (acc : List OutRec × Store) (row : ClassRow) :
    List OutRec × Store :=
  match searchMissingInfo acc.2 row.Form row.Class subject (teacherOf row) with
  | some info => (acc.1 ++ [mkSearchRec subCodeMap info row], acc.2)
  | none => acc

/-- Recovery pass over the class-list rows for one subject, with the teacher
taken from the given column. -/
def searchPass (subCodeMap : List (String × String)) (subject : String)
    (teacherOf : ClassRow → String) (store : Store) (classListData : List ClassRow) :
    List OutRec × Store :=
  classListData.foldl (searchPassStep subCodeMap subject teacherOf) ([], store)

/-- Entries of the store whose group contains exactly one digit and whose
subject is the literal parenthesized M2 marker, in store order. -/
def missingSpecificOf (store : Store) : List StoreEntry :=
  ((store.map (fun b => b.2)).flatten).filter
    (fun info => countDigits info.group == 1 && info.subject == "(M2)")

/-- Final M2 pass of main: for each class-list row with a numeric Form above
3 and an M1-and-2 column containing M2, the first missingSpecific entry
whose group starts with the form number yields a record with the fixed pair
DMA21 and DMATH2. -/
def m2Pass (missingSpecific : List StoreEntry) (classListData : List ClassRow) :
    List OutRec :=
  classListData.filterMap (fun row =>
    match jsNumberNat row.Form with
    | some formNumber =>
        if 3 < formNumber && row.m12 ≠ "" && strIncl row.m12 "M2" then
          match missingSpecific.find? (fun entry =>
              jsStartsWith entry.group (toString formNumber)) with
          | some mtch =>
              let g := toString formNumber ++ " (M2) " ++ mtch.teacher
              some ⟨row.TSSSID, "2025/2026", "Term 1", "DMA21", some "DMATH2",
                "TRUE", "FALSE", g, g⟩
          | none => none
        else none
    | none => none)

/-- Result of main: the output rows in emission order and the unprocessed
diagnostics. -/
structure MainResult where
  outputRows : List OutRec
  unprocessedRows : List UnprocRow
deriving DecidableEq

/-- Whole of main: the first loop over the user-profile rows, then the CHI,
MATHS, RSE and ENG recovery passes, then the M2 pass; the output rows are
written in emission order. -/
def runMain (userData : List PRow) (tableData : List TRow)
    (classListData : List ClassRow) : MainResult :=
  let subCodeMap := subCodeMapOf tableData
  let fl := firstLoop classListData subCodeMap userData
  let chi := searchPass subCodeMap "CHI" ClassRow.CHI fl.2.2 classListData
  let maths := searchPass subCodeMap "MATHS" ClassRow.MATHS chi.2 classListData
  let rse := searchPass subCodeMap "RSE" ClassRow.RSE maths.2 classListData
  let eng := searchPass subCodeMap "ENG" ClassRow.ENG rse.2 classListData
  let missingSpecific := missingSpecificOf eng.2
  let m2 := m2Pass missingSpecific classListData
  { outputRows := fl.1 ++ chi.1 ++ maths.1 ++ rse.1 ++ eng.1 ++ m2
    unprocessedRows := fl.2.1 }

/-! ## Helper lemmas about the string primitives -/

/-- Removing hyphens from a hyphen-free string is the identity. -/
lemma removeHyphens_of_not_hasHyphen {s : String} (h : hasHyphen s = false) :
    removeHyphens s = s := by
  unfold removeHyphens
  unfold hasHyphen at h
  have hd : s.data.filter (fun c => c ≠ '-') = s.data := by
    apply List.filter_eq_self.mpr
    intro a ha
    simp only [ne_eq, decide_eq_true_eq]
    rintro rfl
    simp [List.contains_eq_any_beq] at h
    exact h ha
  rw [hd]

/-- Conditional hyphen removal, as written at each JavaScript call site, is
unconditional hyphen removal. -/
lemma ite_removeHyphens (s : String) :
    (if hasHyphen s then removeHyphens s else s) = removeHyphens s := by
  by_cases h : hasHyphen s
  · simp [h]
  · simp only [Bool.not_eq_true] at h
    simp [h, removeHyphens_of_not_hasHyphen h]

/-- Prefix testing is preserved by mapping a function over both lists. -/
lemma isPrefixOfL_map (f : Char → Char) :
    ∀ n h : List Char, isPrefixOfL n h = true → isPrefixOfL (n.map f) (h.map f) = true := by
  intro n
  induction n with
  | nil => intro h _; simp [isPrefixOfL, List.map]
  | cons a as ih =>
    intro h hp
    cases h with
    | nil => simp [isPrefixOfL] at hp
    | cons b bs =>
      simp only [isPrefixOfL, Bool.and_eq_true, beq_iff_eq] at hp
      simp only [List.map, isPrefixOfL, Bool.and_eq_true, beq_iff_eq]
      exact ⟨congrArg f hp.1, ih bs hp.2⟩

/-- Substring occurrence is preserved by mapping a function over both lists. -/
lemma occursIn_map (f : Char → Char) :
    ∀ h n : List Char, occursIn n h = true → occursIn (n.map f) (h.map f) = true := by
  intro h
  induction h with
  | nil =>
    intro n hn
    simp only [occursIn, List.isEmpty_iff] at hn
    subst hn
    simp [occursIn]
  | cons b bs ih =>
    intro n hn
    simp only [occursIn, Bool.or_eq_true] at hn ⊢
    rcases hn with hp | ho
    · exact Or.inl (isPrefixOfL_map f n (b :: bs) hp)
    · exact Or.inr (ih n ho)

/-- The lexicographic comparison is total. -/
lemma lexLe_total : ∀ a b : List Char, lexLe a b = true ∨ lexLe b a = true := by
  intro a
  induction a with
  | nil => intro b; left; rfl
  | cons x xs ih =>
    intro b
    cases b with
    | nil => right; rfl
    | cons y ys =>
      by_cases hxy : x = y
      · subst hxy
        simp only [lexLe, if_pos rfl]
        exact ih ys
      · rcases lt_or_gt_of_ne hxy with hlt | hgt
        · left; simp [lexLe, hxy, hlt]
        · right; simp [lexLe, Ne.symm hxy, hgt]

/-- The lexicographic comparison is transitive. -/
lemma lexLe_trans :
    ∀ {a b c : List Char}, lexLe a b = true → lexLe b c = true → lexLe a c = true := by
  intro a
  induction a with
  | nil => intro b c _ _; rfl
  | cons x xs ih =>
    intro b c hab hbc
    cases b with
    | nil => simp [lexLe] at hab
    | cons y ys =>
      cases c with
      | nil => simp [lexLe] at hbc
      | cons z zs =>
        by_cases hxy : x = y <;> by_cases hyz : y = z
        · subst hxy; subst hyz
          simp only [lexLe, if_pos rfl] at hab hbc ⊢
          exact ih hab hbc
        · subst hxy
          simp only [lexLe, if_pos rfl] at hab
          simp only [lexLe, if_neg hyz, decide_eq_true_eq] at hbc
          simp [lexLe, hyz, hbc]
        · subst hyz
          simp only [lexLe, if_neg hxy, decide_eq_true_eq] at hab
          simp [lexLe, hxy, hab]
        · simp only [lexLe, if_neg hxy, decide_eq_true_eq] at hab
          simp only [lexLe, if_neg hyz, decide_eq_true_eq] at hbc
          have hxz : x < z := lt_trans hab hbc
          simp [lexLe, ne_of_lt hxz, hxz]

instance : IsTotal AppendRec groupingLe := ⟨fun _ _ => lexLe_total _ _⟩

instance : IsTrans AppendRec groupingLe := ⟨fun _ _ _ => lexLe_trans⟩

instance : IsTotal PRow userLe := ⟨fun _ _ => lexLe_total _ _⟩

instance : IsTrans PRow userLe := ⟨fun _ _ _ => lexLe_trans⟩

instance : IsTotal ClassRow classNoLe := ⟨fun _ _ => le_total _ _⟩

instance : IsTrans ClassRow classNoLe := ⟨fun _ _ _ => le_trans⟩

/-! ## Claim C2 -/

/-- Claim C2: for every grouping string that contains DSE and whose derived
candidate is a key of the DSE override table, the resolver returns that
table value as the sub_code, whatever the reference table contains. -/
theorem C2_dse_priority (groupingVal : String) (tableRows : List TRow) (v : String)
    (h1 : strIncl groupingVal "DSE" = true)
    (h2 : dseMapping.lookup (deriveCandidate groupingVal) = some v) :
    resolveSubCode groupingVal tableRows = v := by
  have hup : strIncl (jsToUpper groupingVal) "DSE" = true := by
    have hm := occursIn_map Char.toUpper groupingVal.data "DSE".data h1
    have hdse : ("DSE".data.map Char.toUpper) = "DSE".data := by decide
    unfold strIncl jsToUpper
    rw [← hdse]
    exact hm
  unfold resolveSubCode
  simp only [h2, hup, Option.isSome_some, Bool.and_self, if_true, Option.getD_some]

/-- Witness for C2: a concrete DSE grouping resolves through the DSE table
even though the reference table has a row whose subject-code column contains
the candidate and carries a different sub_code. -/
theorem C2_dse_priority_witness :
    resolveSubCode "4DSE-PE1 SUW" [⟨"ZZZ", "XDSE-PE1Y"⟩] = "DPED1" :=
  C2_dse_priority "4DSE-PE1 SUW" [⟨"ZZZ", "XDSE-PE1Y"⟩] "DPED1" (by decide) (by decide)

/-! ## Claim C4 -/

/-- Claim C4: the verification pipeline runs first-level verification over
all rows and then second-level verification on the value left by first-level
verification on the same row; the concrete conjuncts exhibit a row where
operating on the pre-first-level sub_code would differ (DMA11 maps to MATH
at first level, and second level leaves MATH; second level applied to the
original DMA11 would have produced DMATH1). -/
theorem C4_second_level_after_first (data : List VRow) :
    (runVerification data).1
        = data.map (fun row => secondLevelVerification (firstLevelVerification row).1)
    ∧ runVerification [⟨"1A", "DMA11"⟩] = ([⟨"1A", "MATH"⟩], 1)
    ∧ secondLevelVerification ⟨"1A", "DMA11"⟩ = ⟨"1A", "DMATH1"⟩ := by
  refine ⟨?_, by decide, by decide⟩
  unfold runVerification
  simp [List.map_map, Function.comp]

/-! ## Claim C7 (corrected) -/

/-- Counterexample for C7: the frequency-index normalization does not
collapse internal whitespace (a cell with a double space is indexed with the
double space kept), and the findMatches query normalization neither
collapses whitespace nor trims (a collapsed key does not match an
uncollapsed query, and an untrimmed query does not match its trimmed key). -/
theorem C7_counterexample :
    buildFrequencyMap [[("c1", "a  b")]] = [("a  b", ⟨1, []⟩)]
    ∧ findMatches [("a b", ⟨1, []⟩)] "a  b" = ⟨0, [], []⟩
    ∧ findMatches [("x", ⟨1, []⟩)] " x" = ⟨0, [], []⟩
    ∧ ("a  b" : String) ≠ "a b" := by decide

/-- Amended C7: the cell normalization before entering the frequency index
is trimming followed by hyphen removal (no whitespace collapsing), and the
findMatches query normalization is hyphen removal alone (no trim, no
collapsing). -/
theorem C7_normalization_characterization :
    (∀ s : String, buildFrequencyMap [[("c", s)]]
        = if jsTrim s = "" then [] else [(removeHyphens (jsTrim s), ⟨1, []⟩)])
    ∧ ∀ (fm : List (String × FreqEntry)) (s : String),
        findMatches fm s = fm.foldl (findMatchesStep (removeHyphens s)) ⟨0, [], []⟩ := by
  constructor
  · intro s
    unfold buildFrequencyMap
    simp only [List.foldl]
    by_cases h : jsTrim s = ""
    · simp [h]
    · simp [h, ite_removeHyphens, bumpFreq, rowSubCode, List.lookup]
  · intro fm s
    unfold findMatches
    rw [ite_removeHyphens]

/-! ## Claim C5 -/

/-- Claim C5: first-level verification marks a row invalid exactly when the
class number is missing, or it is at most 3 and the trimmed sub_code starts
with the letter d, or it exceeds 3 and the trimmed sub_code does not start
with the letter d; and on an invalid row whose trimmed uppercased sub_code
is not a key of the first-level override table the row is left unchanged. -/
theorem C5_first_level_invalid (row : VRow) :
    ((firstLevelVerification row).2 = true ↔
      extractClassNumber row.cls = none
      ∨ (∃ n, extractClassNumber row.cls = some n ∧ n ≤ 3
            ∧ startsWithD (jsTrim row.sub_code) = true)
      ∨ (∃ n, extractClassNumber row.cls = some n ∧ 3 < n
            ∧ startsWithD (jsTrim row.sub_code) = false))
    ∧ ((firstLevelVerification row).2 = true →
        firstLevelSubCodeMapping.lookup (jsToUpper (jsTrim row.sub_code)) = none →
        (firstLevelVerification row).1 = row) := by
  constructor
  · unfold firstLevelVerification
    rcases hc : extractClassNumber row.cls with _ | n
    · simp [hc]
    · by_cases hs : startsWithD (jsTrim row.sub_code) = true
      · by_cases hn : n ≤ 3
        · simp [hc, hn, hs]
        · simp [hc, hn, hs, lt_of_not_le hn]
      · rw [Bool.not_eq_true] at hs
        by_cases hn : n ≤ 3
        · simp [hc, hn, hs]
        · simp [hc, hn, hs, lt_of_not_le hn]
  · intro _ hlookup
    unfold firstLevelVerification
    rcases hc : extractClassNumber row.cls with _ | n
    · simp [hc, applyFirstLevelMapping, hlookup]
    · simp only [hc]
      split <;> split <;> simp [applyFirstLevelMapping, hlookup]

/-- Witness for C5: the class field 7Z with sub_code PHY1 is first-level
invalid (class number 7 above 3, no leading letter d) and, PHY1 being
absent from the first-level override table, the row is left unchanged. -/
theorem C5_first_level_invalid_witness :
    (firstLevelVerification ⟨"7Z", "PHY1"⟩).2 = true
    ∧ (firstLevelVerification ⟨"7Z", "PHY1"⟩).1 = ⟨"7Z", "PHY1"⟩ :=
  ⟨(C5_first_level_invalid ⟨"7Z", "PHY1"⟩).1.mpr
      (Or.inr (Or.inr ⟨7, by decide, by decide, by decide⟩)),
   (C5_first_level_invalid ⟨"7Z", "PHY1"⟩).2 (by decide) (by decide)⟩

/-! ## Claim C6 (corrected) -/

/-- Counterexample for C6: a two-token grouping whose first token strips to
M2 does resolve to the sub-code DMA21, but the subject code the pipelines
pair with DMA21 is a reference-table lookup, not a fixed DMATH2: with a
table row mapping DMA21 to WRONG, both the main lookup map and the
sub-subject mapping yield WRONG. -/
theorem C6_counterexample :
    resolveSubCode "4M2 SUW" [⟨"DMA21", "WRONG"⟩] = "DMA21"
    ∧ objGet (subCodeMapOf [⟨"DMA21", "WRONG"⟩]) "DMA21" = some "WRONG"
    ∧ objGetD (subSubjectMappingOf [⟨"DMA21", "WRONG"⟩]) (convertSubCode "DMA21") "" = "WRONG"
    ∧ ("WRONG" : String) ≠ "DMATH2" := by decide

/-- Amended C6: for every two-token grouping whose first token with leading
digits removed trims to M2, the resolver special case yields the sub-code
DMA21 independent of the reference table; the paired subject code is not
produced by the resolver but by a downstream reference-table lookup (the
fixed DMA21 and DMATH2 pair is emitted only by the M2 recovery pass of
main). -/
theorem C6_m2_resolver (groupingVal : String) (tableRows : List TRow)
    (h1 : ((jsSplitOnChar ' ' groupingVal).filter (fun p => jsTrim p ≠ "")).length = 2)
    (h2 : jsTrim (stripLeadingDigitsStr
        (((jsSplitOnChar ' ' groupingVal).filter (fun p => jsTrim p ≠ "")).getD 0 "")) = "M2") :
    resolveSubCode groupingVal tableRows = "DMA21" := by
  have hcand : deriveCandidate groupingVal = "M2" := by
    unfold deriveCandidate
    simp only [h1, h2]
    norm_num
    decide
  have hl : (dseMapping.lookup "M2").isSome = false := by decide
  unfold resolveSubCode
  simp [hcand, hl]

/-- Witness for the amended C6: the concrete two-token grouping with first
token 4M2 resolves to DMA21 against an empty reference table. -/
theorem C6_m2_resolver_witness :
    resolveSubCode "4M2 SUW" [] = "DMA21" :=
  C6_m2_resolver "4M2 SUW" [] (by decide) (by decide)

/-! ## Claim C1 (corrected) -/

/-- Counterexample for C1: main emits a record with an empty sub_code and a
null subject_code for an eligible user row with an empty sub_code and a
matching class-list row; nothing is withheld and nothing is logged as
unprocessed. -/
theorem C1_counterexample :
    (runMain [⟨"u1", "", "1J CES JAT", "1J CES JAT", "1J CES JAT"⟩] []
        [⟨"1", "J", "1", "T1", "", "", "", "", ""⟩]).outputRows
      = [⟨"T1", "2025/2026", "Term 1", "", none, "TRUE", "FALSE", "1J CES JAT", "1J CES JAT"⟩]
    ∧ (runMain [⟨"u1", "", "1J CES JAT", "1J CES JAT", "1J CES JAT"⟩] []
        [⟨"1", "J", "1", "T1", "", "", "", "", ""⟩]).unprocessedRows = [] := by decide

/-- Amended C1: in the updateStudentProfiles pipeline every record built by
processMatchForRecord has a non-empty sub_code and subject_code and rows
failing this are silently skipped; the student pipeline of main emits
eligible matched rows regardless of empty codes, and only ineligibility or
a missing class-list match is logged as unprocessed. -/
theorem C1_processMatch_guard (m : List (String × String)) (tsssid : String)
    (mo : MatchResult) (rec : AppendRec)
    (h : processMatchForRecord m tsssid mo = some rec) :
    rec.sub_code ≠ "" ∧ rec.subject_code ≠ "" := by
  simp only [processMatchForRecord] at h
  split at h
  · split at h
    case isTrue h2 =>
      cases Option.some.inj h
      exact ⟨h2.1, h2.2⟩
    case isFalse => exact absurd h (by simp)
  · exact absurd h (by simp)

/-- Witness for the amended C1: a concrete match result with both codes
resolvable produces a record, and the theorem yields that its codes are
non-empty. -/
theorem C1_processMatch_guard_witness :
    (AppendRec.mk "T1" "2025/2026" "Term 1" "CHN1" "CHI" "TRUE" "FALSE"
        "1ACHI" "1ACHI").sub_code ≠ ""
    ∧ (AppendRec.mk "T1" "2025/2026" "Term 1" "CHN1" "CHI" "TRUE" "FALSE"
        "1ACHI" "1ACHI").subject_code ≠ "" :=
  C1_processMatch_guard [("CHN1", "CHI")] "T1" ⟨2, ["1ACHI (2)"], ["CHN1"]⟩ _ (by decide)

/-! ## Claim C3 -/

/-- Boolean list containment agrees with membership. -/
lemma contains_eq_true_iff_mem {acc : List String} {a : String} :
    acc.contains a = true ↔ a ∈ acc :=
  ⟨List.mem_of_elem_eq_true, List.elem_eq_true_of_mem⟩

/-- Membership in the deduplicating insertion. -/
lemma mem_addSubCode {acc : List String} {a x : String} :
    x ∈ addSubCode acc a ↔ x ∈ acc ∨ x = a := by
  unfold addSubCode
  by_cases hm : a ∈ acc
  · rw [if_pos (contains_eq_true_iff_mem.mpr hm)]
    constructor
    · exact Or.inl
    · rintro (hx | rfl)
      · exact hx
      · exact hm
  · rw [if_neg (fun hc => hm (contains_eq_true_iff_mem.mp hc))]
    simp

/-- The deduplicating insertion preserves the no-duplicates property. -/
lemma addSubCode_nodup {acc : List String} (h : acc.Nodup) (a : String) :
    (addSubCode acc a).Nodup := by
  unfold addSubCode
  by_cases hm : a ∈ acc
  · rwa [if_pos (contains_eq_true_iff_mem.mpr hm)]
  · rw [if_neg (fun hc => hm (contains_eq_true_iff_mem.mp hc))]
    simp [List.nodup_append, h, hm]

/-- Membership after inserting a whole list of sub-codes. -/
lemma mem_addSubCodes {x : String} :
    ∀ (l acc : List String), x ∈ addSubCodes acc l ↔ x ∈ acc ∨ x ∈ l := by
  intro l
  induction l with
  | nil => intro acc; simp [addSubCodes]
  | cons b t ih =>
    intro acc
    unfold addSubCodes at ih ⊢
    simp only [List.foldl_cons]
    rw [ih (addSubCode acc b), mem_addSubCode]
    simp only [List.mem_cons]
    tauto

/-- Inserting a list of sub-codes preserves the no-duplicates property. -/
lemma addSubCodes_nodup :
    ∀ (l acc : List String), acc.Nodup → (addSubCodes acc l).Nodup := by
  intro l
  induction l with
  | nil => intro acc h; simpa [addSubCodes] using h
  | cons b t ih =>
    intro acc h
    unfold addSubCodes at ih ⊢
    simp only [List.foldl_cons]
    exact ih _ (addSubCode_nodup h b)

/-- Inserting a concatenation inserts the two halves in order. -/
lemma addSubCodes_append (acc l1 l2 : List String) :
    addSubCodes acc (l1 ++ l2) = addSubCodes (addSubCodes acc l1) l2 := by
  unfold addSubCodes
  exact List.foldl_append _ _ _ _

/-- Closed form of the findMatches scan from an arbitrary accumulator. -/
lemma findMatches_foldl (norm : String) :
    ∀ (fm : List (String × FreqEntry)) (r : MatchResult),
      fm.foldl (findMatchesStep norm) r
        = { count := r.count
              + ((fm.filter (fun kv => strIncl kv.1 norm)).map (fun kv => kv.2.count)).sum
            matchList := r.matchList
              ++ (fm.filter (fun kv => strIncl kv.1 norm)).map
                  (fun kv => keyCountStr kv.1 kv.2.count)
            subCodes := addSubCodes r.subCodes
              ((fm.filter (fun kv => strIncl kv.1 norm)).map
                  (fun kv => kv.2.subCodes)).flatten } := by
  intro fm
  induction fm with
  | nil => intro r; simp [addSubCodes]
  | cons kv t ih =>
    intro r
    simp only [List.foldl_cons]
    rw [ih]
    by_cases h : strIncl kv.1 norm = true
    · simp only [findMatchesStep, if_pos h, List.filter_cons, h, if_true, List.map_cons,
        List.sum_cons, List.flatten_cons, addSubCodes_append, List.append_assoc,
        List.singleton_append]
      refine congrArg (fun c => MatchResult.mk c _ _) ?_
      omega
    · simp [findMatchesStep, h]

/-- Claim C3: findMatches returns the sum of the counts of all frequency
index keys containing the hyphen-stripped query, one key-with-count string
per matching key in scan order, and the deduplicated union of the matching
keys sub-code lists; with no matching key (in particular on the empty
index) it returns the zero result. -/
theorem C3_findMatches_spec (fm : List (String × FreqEntry)) (s : String) :
    ((findMatches fm s).count
        = ((fm.filter (fun kv => strIncl kv.1 (removeHyphens s))).map
            (fun kv => kv.2.count)).sum)
    ∧ ((findMatches fm s).matchList
        = (fm.filter (fun kv => strIncl kv.1 (removeHyphens s))).map
            (fun kv => keyCountStr kv.1 kv.2.count))
    ∧ (findMatches fm s).subCodes.Nodup
    ∧ (∀ x, x ∈ (findMatches fm s).subCodes ↔
        ∃ kv ∈ fm.filter (fun kv => strIncl kv.1 (removeHyphens s)), x ∈ kv.2.subCodes)
    ∧ (fm.filter (fun kv => strIncl kv.1 (removeHyphens s)) = [] →
        findMatches fm s = ⟨0, [], []⟩)
    ∧ findMatches [] s = ⟨0, [], []⟩ := by
  have hfm : findMatches fm s = fm.foldl (findMatchesStep (removeHyphens s)) ⟨0, [], []⟩ := by
    unfold findMatches
    rw [ite_removeHyphens]
  rw [hfm, findMatches_foldl]
  refine ⟨by simp, by simp, ?_, ?_, ?_, rfl⟩
  · exact addSubCodes_nodup _ [] List.nodup_nil
  · intro x
    simp only [mem_addSubCodes, List.mem_flatten, List.mem_map, List.mem_filter,
      List.not_mem_nil, false_or]
    constructor
    · rintro ⟨l, ⟨kv, hkv, rfl⟩, hx⟩
      exact ⟨kv, hkv, hx⟩
    · rintro ⟨kv, hkv, hx⟩
      exact ⟨kv.2.subCodes, ⟨kv, hkv, rfl⟩, hx⟩
  · intro hempty
    simp [hempty, addSubCodes]

/-- Witness for C3: on a concrete index with no key containing the query,
findMatches returns the zero result. -/
theorem C3_findMatches_spec_witness :
    findMatches [("AB", ⟨2, ["X"]⟩)] "ZQ" = ⟨0, [], []⟩ :=
  (C3_findMatches_spec [("AB", ⟨2, ["X"]⟩)] "ZQ").2.2.2.2.1 (by decide)

/-! ## Claim C8 (corrected) -/

/-- Counterexample for C8: the student pipeline of main hands its output to
the sink in emission order without any sort: on a concrete run the emitted
sequence is descending both in the grouping key and in the identifier key,
so it is not sorted case-insensitively by either designated column. -/
theorem C8_counterexample :
    ((runMain
        [⟨"u1", "DX1", "2B CES JAT", "2B CES JAT", "2B CES JAT"⟩,
         ⟨"u2", "DX2", "1A CES JAT", "1A CES JAT", "1A CES JAT"⟩] []
        [⟨"2", "B", "1", "B1", "", "", "", "", ""⟩,
         ⟨"1", "A", "1", "A1", "", "", "", "", ""⟩]).outputRows.map
        (fun r => r.grouping))
      = ["2B CES JAT", "1A CES JAT"]
    ∧ ((runMain
        [⟨"u1", "DX1", "2B CES JAT", "2B CES JAT", "2B CES JAT"⟩,
         ⟨"u2", "DX2", "1A CES JAT", "1A CES JAT", "1A CES JAT"⟩] []
        [⟨"2", "B", "1", "B1", "", "", "", "", ""⟩,
         ⟨"1", "A", "1", "A1", "", "", "", "", ""⟩]).outputRows.map
        (fun r => r.tsss_id))
      = ["B1", "A1"]
    ∧ lexLe (jsToLower "2B CES JAT").data (jsToLower "1A CES JAT").data = false
    ∧ lexLe (jsToUpper "B1").data (jsToUpper "A1").data = false := by decide

/-- Amended C8: the updateStudentProfiles pipeline sorts its full output
sequence exactly once by the lowercased grouping column, and the Part 4
user-profile pipeline sorts its full output exactly once by the uppercased
user column, each a permutation of the unsorted data; the student pipeline
of main writes its output unsorted, in emission order. -/
theorem C8_pipeline_sorts (studentData appendedRecords : List AppendRec)
    (tableRows : List TRow) (rows : List PRow) :
    List.Sorted groupingLe (updateStudentOutput studentData appendedRecords)
    ∧ (updateStudentOutput studentData appendedRecords).Perm
        (studentData ++ appendedRecords)
    ∧ List.Sorted userLe (part4Output tableRows rows)
    ∧ (part4Output tableRows rows).Perm (part4Resolve tableRows rows) :=
  ⟨List.sorted_insertionSort _ _, List.perm_insertionSort _ _,
   List.sorted_insertionSort _ _, List.perm_insertionSort _ _⟩

/-! ## Claim C9 -/

/-- Closed form of a recovery pass from an arbitrary record accumulator:
the store component is returned unchanged and one record is appended per
class-list row whose search against the initial store succeeds. -/
lemma searchPass_spec (m : List (String × String)) (subject : String)
    (teacherOf : ClassRow → String) (store : Store) :
    ∀ (rows : List ClassRow) (acc : List OutRec),
      rows.foldl (searchPassStep m subject teacherOf) (acc, store)
        = (acc ++ rows.filterMap (fun row =>
            (searchMissingInfo store row.Form row.Class subject (teacherOf row)).map
              (fun info => mkSearchRec m info row)), store) := by
  intro rows
  induction rows with
  | nil => intro acc; simp
  | cons row t ih =>
    intro acc
    simp only [List.foldl_cons, searchPassStep]
    cases hs : searchMissingInfo store row.Form row.Class subject (teacherOf row) with
    | none =>
      rw [ih acc]
      simp [List.filterMap_cons, hs]
    | some info =>
      rw [ih (acc ++ [mkSearchRec m info row])]
      simp [List.filterMap_cons, hs]

/-- Claim C9: a recovery pass never mutates the deferred store (the CHI pass
returns the store it was given), so every class-list row is searched
against the original store: the emitted records are exactly one per
class-list row whose search of that same store succeeds, each built from
the entry the search returns. -/
theorem C9_search_frame (m : List (String × String)) (store : Store)
    (classListData : List ClassRow) :
    (searchPass m "CHI" ClassRow.CHI store classListData).2 = store
    ∧ (searchPass m "CHI" ClassRow.CHI store classListData).1
        = classListData.filterMap (fun row =>
            (searchMissingInfo store row.Form row.Class "CHI" row.CHI).map
              (fun info => mkSearchRec m info row)) := by
  unfold searchPass
  rw [searchPass_spec]
  exact ⟨rfl, by simp⟩

/-! ## Claim C10 -/

/-- The leading-digit run of an all-non-digit list is empty. -/
lemma leadingDigits_eq_nil {l : List Char} (h : ∀ c ∈ l, Char.isDigit c = false) :
    leadingDigits l = [] := by
  cases l with
  | nil => rfl
  | cons c t =>
      simp [leadingDigits, List.takeWhile_cons, h c (List.mem_cons_self c t)]

/-- A string without digits parses to 0 under the parseInt-or-zero idiom. -/
lemma jsParseIntOr0_eq_zero {s : String}
    (h : ∀ c ∈ trimL s.data, Char.isDigit c = false) :
    jsParseIntOr0 s = 0 := by
  unfold jsParseIntOr0
  split
  next rest heq =>
    have hrest : ∀ x ∈ rest, Char.isDigit x = false := fun x hx =>
      h x (heq ▸ List.mem_cons_of_mem _ hx)
    simp [leadingDigits_eq_nil hrest]
  next rest heq =>
    have hrest : ∀ x ∈ rest, Char.isDigit x = false := fun x hx =>
      h x (heq ▸ List.mem_cons_of_mem _ hx)
    simp [leadingDigits_eq_nil hrest]
  next _ _ =>
    simp [leadingDigits_eq_nil h]

/-- Claim C10: for an eligible user row whose form/class token matches some
class-list rows, main emits exactly one record per matching row, all
sharing the user row sub_code, its subject-code lookup and its class text
as grouping, in ascending numeric Class-no order of the matching rows, a
non-numeric Class-no counting as 0. -/
theorem C10_matching_emission (classListData : List ClassRow)
    (subCodeMap : List (String × String)) (row : PRow) (index : Nat)
    (outs : List OutRec) (unproc : List UnprocRow) (store : Store)
    (h1 : isEligibleClass row.cls = true)
    (h2 : classListData.filter
        (fun item => jsTrim item.Form ++ jsTrim item.Class == extractFormClass row.cls)
        ≠ []) :
    mainStep classListData subCodeMap (outs, unproc, store) (index, row)
      = (outs ++ (List.insertionSort classNoLe
            (classListData.filter (fun item =>
              jsTrim item.Form ++ jsTrim item.Class == extractFormClass row.cls))).map
            (mkMainRec (objGet subCodeMap row.sub_code) row),
         unproc, store)
    ∧ (List.insertionSort classNoLe (classListData.filter (fun item =>
          jsTrim item.Form ++ jsTrim item.Class == extractFormClass row.cls))).length
        = (classListData.filter (fun item =>
            jsTrim item.Form ++ jsTrim item.Class == extractFormClass row.cls)).length
    ∧ List.Sorted classNoLe (List.insertionSort classNoLe (classListData.filter
          (fun item =>
            jsTrim item.Form ++ jsTrim item.Class == extractFormClass row.cls)))
    ∧ (∀ r ∈ (List.insertionSort classNoLe (classListData.filter (fun item =>
          jsTrim item.Form ++ jsTrim item.Class == extractFormClass row.cls))).map
            (mkMainRec (objGet subCodeMap row.sub_code) row),
        r.sub_code = row.sub_code ∧ r.subject_code = objGet subCodeMap row.sub_code
          ∧ r.grouping = row.cls ∧ r.grouping_real = row.cls)
    ∧ (∀ s : String, (∀ c ∈ trimL s.data, Char.isDigit c = false) →
        jsParseIntOr0 s = 0) := by
  refine ⟨?_, List.length_insertionSort _ _, List.sorted_insertionSort _ _, ?_,
    fun s hs => jsParseIntOr0_eq_zero hs⟩
  · unfold mainStep
    simp [h1, List.isEmpty_iff, h2]
  · intro r hr
    obtain ⟨mr, _, rfl⟩ := List.mem_map.mp hr
    exact ⟨rfl, rfl, rfl, rfl⟩

/-- Witness for C10: a concrete eligible row matching three class-list rows
emits three records ordered by numeric Class-no with the non-numeric value
first as 0, all sharing the sub_code, subject-code lookup and grouping. -/
theorem C10_matching_emission_witness :
    mainStep
      [⟨"1", "A", "2", "T2", "", "", "", "", ""⟩,
       ⟨"1", "A", "n/a", "T0", "", "", "", "", ""⟩,
       ⟨"1", "A", "1", "T1", "", "", "", "", ""⟩]
      [("SC", "SJ")] ([], [], [])
      (0, ⟨"u1", "SC", "1A CHI NEW", "1A CHI NEW", "1A CHI NEW"⟩)
      = ([⟨"T0", "2025/2026", "Term 1", "SC", some "SJ", "TRUE", "FALSE",
            "1A CHI NEW", "1A CHI NEW"⟩,
          ⟨"T1", "2025/2026", "Term 1", "SC", some "SJ", "TRUE", "FALSE",
            "1A CHI NEW", "1A CHI NEW"⟩,
          ⟨"T2", "2025/2026", "Term 1", "SC", some "SJ", "TRUE", "FALSE",
            "1A CHI NEW", "1A CHI NEW"⟩], [], []) :=
  ((C10_matching_emission
      [⟨"1", "A", "2", "T2", "", "", "", "", ""⟩,
       ⟨"1", "A", "n/a", "T0", "", "", "", "", ""⟩,
       ⟨"1", "A", "1", "T1", "", "", "", "", ""⟩]
      [("SC", "SJ")] ⟨"u1", "SC", "1A CHI NEW", "1A CHI NEW", "1A CHI NEW"⟩ 0
      [] [] [] (by decide) (by decide)).1).trans (by decide)

end Grouping
